import Mathlib

/-!
Verification of the windowed per-patient feature-derivation engine in
`flatiron_cleaner/prostate.py` (class `DataProcessorProstate`).

The embedding models pandas DataFrames as Lists of typed rows.  Dates are
modelled as integer day numbers (the code reduces all temporal reasoning to
`.dt.days` integer offsets immediately after parsing).  Missing values
(`NaN` / `NaT` / `pd.NA`) are modelled as `Option.none`.  A left merge
(`pd.merge(..., how = 'left')`) keeps every left row and attaches every
matching right row, duplicating left rows on multiple matches, exactly as
pandas does.  `groupby` is modelled as deduplicated key extraction followed
by per-key aggregation over the rows of that key.
-/

namespace FlatironETL

/-- Window Resolver (prostate.py lines 664-673 and 810-812): an event with
signed day offset `offset` relative to the index date is kept when
`offset <= days_after` and, if `days_before` is not `None`, additionally
`-days_before <= offset`. -/
def inWindow (days_before : Option ℤ) (days_after : ℤ) (offset : ℤ) : Bool :=
  match days_before with
  | none => decide (offset ≤ days_after)
  | some b => decide (offset ≤ days_after) && decide (-b ≤ offset)

/-- First matching value for key `k` in an association table; models a lookup
into a patient-keyed frame whose keys are unique. -/
def lookupKey {β : Type} (tbl : List (String × β)) (k : String) : Option β :=
  match tbl.filter (fun q => q.1 = k) with
  | [] => none
  | q :: _ => some q.2

/-- Distinct keys in first-appearance order, skipping keys already seen;
worker for `dedupKeys`. -/
def dedupAux (seen : List String) : List String → List String
  | [] => []
  | k :: ks => if k ∈ seen then dedupAux seen ks else k :: dedupAux (k :: seen) ks

/-- Distinct keys in first-appearance order; models the key set produced by
`groupby('PatientID')`. -/
def dedupKeys (l : List String) : List String := dedupAux [] l

/-- Left merge of a bare key column with a keyed table
(`pd.merge(final_df, tbl, on = 'PatientID', how = 'left')` where `final_df`
has only the `PatientID` column): every key row is kept, matching rows
attach their value, a key with no match gets a missing value, and a key with
several matches is duplicated. -/
def leftMergeIds {β : Type} (ids : List String) (tbl : List (String × β)) :
    List (String × Option β) :=
  ids.flatMap (fun k =>
    match tbl.filter (fun q => q.1 = k) with
    | [] => [(k, none)]
    | ms => ms.map (fun q => (k, some q.2)))

/-- Left merge of a keyed table with a second keyed table, keeping the first
table's payload; models the second `pd.merge(..., how = 'left')` in
`process_ecog`. -/
def leftMergePair {α β : Type} (rows : List (String × α)) (tbl : List (String × β)) :
    List (String × α × Option β) :=
  rows.flatMap (fun p =>
    match tbl.filter (fun q => q.1 = p.1) with
    | [] => [(p.1, p.2, none)]
    | ms => ms.map (fun q => (p.1, p.2, some q.2)))

/-! ### Biomarkers source (`process_biomarkers`, prostate.py lines 576-715) -/

/-- One row of Enhanced_MetPC_Biomarkers.csv after date parsing: dates are
day numbers, `none` models `NaT`. -/
structure BioRow where
  patientID : String
  resultDate : Option ℤ
  specimenReceivedDate : Option ℤ
  biomarkerName : String
  biomarkerStatus : String
deriving DecidableEq, Repr

/-- Imputation at line 647: a missing `ResultDate` is replaced by
`SpecimenReceivedDate`. -/
def imputeResultDate (r : BioRow) : Option ℤ :=
  match r.resultDate with
  | some d => some d
  | none => r.specimenReceivedDate

/-- `positive_values` set from lines 676-681. -/
def positive_values : List String :=
  ["BRCA1 mutation identified",
   "BRCA2 mutation identified",
   "Both BRCA1 and BRCA2 mutations identified",
   "BRCA mutation NOS"]

/-- `negative_values` set from lines 683-686. -/
def negative_values : List String :=
  ["No BRCA mutation",
   "Genetic Variant Favor Polymorphism"]

/-- Categorical Aggregator (the `agg` lambda at lines 692-694): `positive`
if any status is in `positive_values`, else `negative` if any status is in
`negative_values`, else `unknown`. -/
def aggBRCA (statuses : List String) : String :=
  if statuses.any (fun v => positive_values.contains v) then "positive"
  else if statuses.any (fun v => negative_values.contains v) then "negative"
  else "unknown"

/-- The BRCA rows of the biomarker file that survive the registry filter,
the merge, the offset computation (`index_to_result`, line 662; a row whose
imputed `ResultDate` is missing has a `NaN` offset and fails every window
comparison) and the window filter (lines 665-673), paired with their offset.
The registry is assumed patient-unique, as enforced by the validation at
lines 630-631. -/
def biomarkerQualifyingRows (index_date_df : List (String × ℤ)) (df : List BioRow)
    (days_before : Option ℤ) (days_after : ℤ) : List (BioRow × ℤ) :=
  let df1 := df.filter (fun r => (index_date_df.map Prod.fst).contains r.patientID)
  let merged := df1.filterMap (fun r =>
    (lookupKey index_date_df r.patientID).map (fun idx => (r, idx)))
  let withOff : List (BioRow × ℤ) := merged.filterMap (fun ri =>
    (imputeResultDate ri.1).map (fun d => (ri.1, d - ri.2)))
  let df_filtered := withOff.filter (fun ri => inWindow days_before days_after ri.2)
  df_filtered.filter (fun ri => ri.1.biomarkerName = "BRCA")

/-- Full `process_biomarkers` output table: per-patient BRCA status grouped
over the qualifying rows (lines 688-697), left-merged back onto the registry
patient column (lines 699-701). -/
def process_biomarkers (index_date_df : List (String × ℤ)) (df : List BioRow)
    (days_before : Option ℤ) (days_after : ℤ) : List (String × Option String) :=
  let brcaRows := biomarkerQualifyingRows index_date_df df days_before days_after
  let keys := dedupKeys (brcaRows.map (fun ri => ri.1.patientID))
  let brca_df : List (String × String) := keys.map (fun k =>
    (k, aggBRCA ((brcaRows.filter (fun ri => ri.1.patientID = k)).map
      (fun ri => ri.1.biomarkerStatus))))
  leftMergeIds (index_date_df.map Prod.fst) brca_df

/-! ### ECOG source (`process_ecog`, prostate.py lines 717-873) -/

/-- One row of ECOG.csv after parsing: `ecogDate` is a day number (`none`
models `NaT`); `ecogValue` is the coerced integer score (rows whose score is
missing are outside the scope of the selection and trend claims and are not
modelled). -/
structure EcogRow where
  patientID : String
  ecogDate : Option ℤ
  ecogValue : ℤ
deriving DecidableEq, Repr

/-- Strict "comes first after `sort_values(by = [abs_days_to_index,
EcogValue], ascending = [True, False])`" order (lines 818-820): smaller
absolute offset wins, and on equal absolute offset the larger value wins. -/
def betterEcog (a b : ℤ × ℤ) : Bool :=
  decide (|a.1| < |b.1|) || (decide (|a.1| = |b.1|) && decide (b.2 < a.2))

/-- First row of the group after the sort of lines 818-820, computed as the
fold that keeps the strictly better of two rows; rows are (offset, value)
pairs. -/
def selBest : List (ℤ × ℤ) → Option (ℤ × ℤ)
  | [] => none
  | r :: rs => some (rs.foldl (fun b x => if betterEcog x b then x else b) r)

/-- Single-Value Selector (lines 815-825): the `EcogValue` of the first row
of the sorted per-patient group (`groupby('PatientID').first()`). -/
def ecog_index (rows : List (ℤ × ℤ)) : Option ℤ :=
  (selBest rows).map Prod.snd

/-- Trend Detector (the `agg` lambda at lines 841-848) over the
chronologically ascending value sequence of one patient: the flag is true
when the last value is `>= 2` and some strictly earlier value is in
`{0, 1}`; an empty group never reaches the lambda and resolves to a missing
flag. -/
def ecogProgressionFlag (vs : List ℤ) : Option Bool :=
  match vs with
  | [] => none
  | v :: rest =>
    some (decide (2 ≤ (v :: rest).getLastD 0) &&
      (v :: rest).dropLast.any (fun x => x == 0 || x == 1))

/-- Full `process_ecog` output table: the registry-filtered, merged event
rows paired with their `index_to_ecog` offset (line 807; a `NaT` date gives
a `NaN` offset, which fails both window comparisons), the closest-window
selection (lines 810-829), the progression-window flag (lines 832-851, with
the group sorted by `EcogDate`; within one patient sorting by date equals
sorting by offset), and the two left merges back onto the registry patient
column (lines 854-856). -/
def process_ecog (index_date_df : List (String × ℤ)) (df : List EcogRow)
    (days_before days_after days_before_further : ℤ) :
    List (String × Option ℤ × Option Bool) :=
  let df1 := df.filter (fun r => (index_date_df.map Prod.fst).contains r.patientID)
  let merged := df1.filterMap (fun r =>
    (lookupKey index_date_df r.patientID).map (fun idx => (r, idx)))
  let withOff : List (EcogRow × ℤ) := merged.filterMap (fun ri =>
    (ri.1.ecogDate).map (fun d => (ri.1, d - ri.2)))
  let df_closest_window := withOff.filter (fun ri =>
    inWindow (some days_before) days_after ri.2)
  let keys1 := dedupKeys (df_closest_window.map (fun ri => ri.1.patientID))
  let ecog_index_df : List (String × Option ℤ) := keys1.map (fun k =>
    (k, ecog_index ((df_closest_window.filter (fun ri => ri.1.patientID = k)).map
      (fun ri => (ri.2, ri.1.ecogValue)))))
  let df_progression_window := withOff.filter (fun ri =>
    inWindow (some days_before_further) days_after ri.2)
  let keys2 := dedupKeys (df_progression_window.map (fun ri => ri.1.patientID))
  let ecog_newly_gte2_df : List (String × Option Bool) := keys2.map (fun k =>
    (k, ecogProgressionFlag
      ((List.insertionSort (fun a b : EcogRow × ℤ => a.2 ≤ b.2)
        (df_progression_window.filter (fun ri => ri.1.patientID = k))).map
        (fun ri => ri.1.ecogValue))))
  let ids := index_date_df.map Prod.fst
  (leftMergePair (leftMergeIds ids ecog_index_df) ecog_newly_gte2_df).map
    (fun t => (t.1, t.2.1.join, t.2.2.join))

/-! ### Demographics source (`process_demographics`, prostate.py lines 378-499) -/

/-- `STATE_REGIONS_MAPPING` class dictionary (lines 85-138). -/
def STATE_REGIONS_MAPPING : List (String × String) :=
  [("ME", "northeast"), ("NH", "northeast"), ("VT", "northeast"), ("MA", "northeast"),
   ("CT", "northeast"), ("RI", "northeast"), ("NY", "northeast"), ("NJ", "northeast"),
   ("PA", "northeast"),
   ("IL", "midwest"), ("IN", "midwest"), ("MI", "midwest"), ("OH", "midwest"),
   ("WI", "midwest"), ("IA", "midwest"), ("KS", "midwest"), ("MN", "midwest"),
   ("MO", "midwest"), ("NE", "midwest"), ("ND", "midwest"), ("SD", "midwest"),
   ("DE", "south"), ("FL", "south"), ("GA", "south"), ("MD", "south"),
   ("NC", "south"), ("SC", "south"), ("VA", "south"), ("DC", "south"),
   ("WV", "south"), ("AL", "south"), ("KY", "south"), ("MS", "south"),
   ("TN", "south"), ("AR", "south"), ("LA", "south"), ("OK", "south"),
   ("TX", "south"),
   ("AZ", "west"), ("CO", "west"), ("ID", "west"), ("MT", "west"),
   ("NV", "west"), ("NM", "west"), ("UT", "west"), ("WY", "west"),
   ("AK", "west"), ("CA", "west"), ("HI", "west"), ("OR", "west"),
   ("WA", "west"), ("PR", "unknown")]

/-- `Series.map(dict)`: a raw code that is a key of the dictionary maps to
its value, any other raw code maps to `NaN` (`none`). -/
def series_map {α : Type} (m : List (String × α)) (raw : String) : Option α :=
  lookupKey m raw

/-- Region recoding (lines 477-480):
`.map(STATE_REGIONS_MAPPING).fillna('unknown')` — a missing state or an
unmapped state code becomes `'unknown'`. -/
def region_of_state (state : Option String) : String :=
  match state with
  | none => "unknown"
  | some s => (series_map STATE_REGIONS_MAPPING s).getD "unknown"

/-- One row of Demographics.csv (the columns the processed output depends
on; `Gender` is dropped unconditionally). -/
structure DemoRow where
  patientID : String
  birthYear : ℤ
  state : Option String
  race : Option String
  ethnicity : Option String
deriving DecidableEq, Repr

/-- One output row of `process_demographics`. -/
structure DemoOut where
  patientID : String
  age : ℤ
  race : Option String
  ethnicity : Option String
  region : String
deriving DecidableEq, Repr

/-- Full `process_demographics` output (lines 438-495): the demographics
rows are filtered to registry patients and left-merged with the index date
(lines 449-455) — there is no reinstating merge back onto the registry, so
the output has one row per surviving demographics row.  `age` is index year
minus birth year (line 457); `yr` abstracts the `.dt.year` accessor on day
numbers.  Race/Ethnicity imputation follows lines 469-472 and the region
recoding lines 477-480. -/
def process_demographics (yr : ℤ → ℤ) (index_date_df : List (String × ℤ))
    (df : List DemoRow) : List DemoOut :=
  let df1 := df.filter (fun r => (index_date_df.map Prod.fst).contains r.patientID)
  df1.filterMap (fun r =>
    (lookupKey index_date_df r.patientID).map (fun idx =>
      { patientID := r.patientID
        age := yr idx - r.birthYear
        race := if r.race = some "Hispanic or Latino" then none else r.race
        ethnicity := if r.race = some "Hispanic or Latino" then some "Hispanic or Latino"
                     else r.ethnicity
        region := region_of_state r.state }))

/-! ### Enhanced source (`process_enhanced`, prostate.py lines 147-376) -/

/-- `GROUP_STAGE_MAPPING` class dictionary (lines 15-38). -/
def GROUP_STAGE_MAPPING : List (String × String) :=
  [("IV", "IV"), ("IVA", "IV"), ("IVB", "IV"),
   ("III", "III"), ("IIIA", "III"), ("IIIB", "III"), ("IIIC", "III"),
   ("II", "II"), ("IIA", "II"), ("IIB", "II"), ("IIC", "II"),
   ("I", "I"),
   ("Unknown / Not documented", "unknown")]

/-- `T_STAGE_MAPPING` class dictionary (lines 40-56). -/
def T_STAGE_MAPPING : List (String × String) :=
  [("T4", "T4"), ("T3", "T3"), ("T3a", "T3"), ("T3b", "T3"),
   ("T2", "T2"), ("T2a", "T2"), ("T2b", "T2"), ("T2c", "T2"),
   ("T1", "T1"), ("T1a", "T1"), ("T1b", "T1"), ("T1c", "T1"),
   ("T0", "T1"), ("TX", "unknown"), ("Unknown / Not documented", "unknown")]

/-- `N_STAGE_MAPPING` class dictionary (lines 58-63). -/
def N_STAGE_MAPPING : List (String × String) :=
  [("N1", "N1"), ("N0", "N0"), ("NX", "unknown"),
   ("Unknown / Not documented", "unknown")]

/-- `M_STAGE_MAPPING` class dictionary (lines 65-72). -/
def M_STAGE_MAPPING : List (String × String) :=
  [("M1", "M1"), ("M1a", "M1"), ("M1b", "M1"), ("M1c", "M1"),
   ("M0", "M0"), ("Unknown / Not documented", "unknown")]

/-- A value of the heterogeneous `GLEASON_MAPPING` dictionary: integer grade
groups 1-5 or the string `'unknown'`. -/
inductive GleasonCat where
  | grade (n : ℤ)
  | label (s : String)
deriving DecidableEq, Repr

/-- `GLEASON_MAPPING` class dictionary (lines 74-83). -/
def GLEASON_MAPPING : List (String × GleasonCat) :=
  [("10", .grade 5), ("9", .grade 5), ("8", .grade 4),
   ("4 + 3 = 7", .grade 3), ("7 (when breakdown not available)", .grade 3),
   ("3 + 4 = 7", .grade 2), ("Less than or equal to 6", .grade 1),
   ("Unknown / Not documented", .label "unknown")]

/-- One row of Enhanced_MetProstate.csv restricted to the fields the PSA
rate metrics read: parsed dates as day numbers (`none` models `NaT`) and
coerced PSA values as rationals (`none` models `NaN`). -/
structure EnhancedRow where
  diagnosisDate : Option ℤ
  metDiagnosisDate : Option ℤ
  psaDiagnosis : Option ℚ
  psaMetDiagnosis : Option ℚ
deriving DecidableEq, Repr

/-- `days_diagnosis_to_met` (line 308): day difference of the two dates,
`NaN` when either is missing. -/
def days_diagnosis_to_met (r : EnhancedRow) : Option ℤ :=
  match r.metDiagnosisDate, r.diagnosisDate with
  | some m, some d => some (m - d)
  | _, _ => none

/-- `psa_velocity` (lines 347-357): the chain of `.query` guards —
`DiagnosisDate` present, `days_diagnosis_to_met > 30`, both PSA values
present and strictly positive — then
`(PSAMetDiagnosis - PSADiagnosis) / (days_diagnosis_to_met / 30)`.
A patient failing any guard is absent from `df_velocity` and gets a missing
value from the left merge at line 360. -/
def psa_velocity (r : EnhancedRow) : Option ℚ :=
  match r.diagnosisDate, days_diagnosis_to_met r, r.psaDiagnosis, r.psaMetDiagnosis with
  | some _, some n, some p0, some p1 =>
    if 30 < n ∧ 0 < p0 ∧ 0 < p1 then
      some ((p1 - p0) / ((n : ℚ) / 30))
    else none
  | _, _, _, _ => none

/-- `psa_doubling` (lines 329-344): the velocity guards plus
`PSAMetDiagnosis > PSADiagnosis`, then
`((days_diagnosis_to_met / 30) * ln 2) / (ln PSAMetDiagnosis - ln PSADiagnosis)`.
The natural-log routine (`math.log` / `np.log`) is abstracted as the
parameter `lg`; every precondition is concrete. -/
def psa_doubling (lg : ℚ → ℚ) (r : EnhancedRow) : Option ℚ :=
  match r.diagnosisDate, days_diagnosis_to_met r, r.psaDiagnosis, r.psaMetDiagnosis with
  | some _, some n, some p0, some p1 =>
    if 30 < n ∧ p0 < p1 ∧ 0 < p0 ∧ 0 < p1 then
      some ((((n : ℚ) / 30) * lg 2) / (lg p1 - lg p0))
    else none
  | _, _, _, _ => none

/-! ### Input validation (prostate.py lines 623-637 and 772-785) -/

/-- A Python value passed as a window bound: an `int`, a `float`, a string,
or `None`. -/
inductive PyVal where
  | int (n : ℤ)
  | float (q : ℚ)
  | str (s : String)
  | pynone
deriving DecidableEq, Repr

/-- The `days_after` check (lines 636-637 and 784-785):
`not isinstance(days_after, int) or days_after < 0` raises. -/
def daysAfterCheck (v : PyVal) : Option String :=
  match v with
  | .int m => if m < 0 then some "days_after must be a non-negative integer" else none
  | _ => some "days_after must be a non-negative integer"

/-- The `days_before` check of `process_biomarkers` (lines 633-635):
`None` is allowed, otherwise a non-negative `int` is required; then the
`days_after` check runs. -/
def biomarkersBoundsCheck (days_before days_after : PyVal) : Option String :=
  match days_before with
  | .pynone => daysAfterCheck days_after
  | .int n =>
    if n < 0 then some "days_before must be a non-negative integer or None"
    else daysAfterCheck days_after
  | _ => some "days_before must be a non-negative integer or None"

/-- The `days_before` check of `process_ecog` (lines 782-783): a
non-negative `int` is required; then the `days_after` check runs. -/
def ecogBoundsCheck (days_before days_after : PyVal) : Option String :=
  match days_before with
  | .int n =>
    if n < 0 then some "days_before must be a non-negative integer"
    else daysAfterCheck days_after
  | _ => some "days_before must be a non-negative integer"

/-- Validation block of `process_biomarkers` (lines 623-637), run before
`pd.read_csv`: registry column and uniqueness checks, then
`days_before` must be `None` or a non-negative `int`, and `days_after` a
non-negative `int`.  Returns the first raised error message, `none` when
validation passes. -/
def validateBiomarkersArgs (cols : List String) (pids : List String)
    (index_date_column : String) (days_before days_after : PyVal) :
    Option String :=
  if "PatientID" ∉ cols then
    some "index_date_df must contain a PatientID column"
  else if index_date_column = "" ∨ index_date_column ∉ cols then
    some "index_date_column not found in index_date_df"
  else if ¬ pids.Nodup then
    some "index_date_df contains duplicate PatientID values, which is not allowed"
  else biomarkersBoundsCheck days_before days_after

/-- Validation block of `process_ecog` (lines 772-785), run before
`pd.read_csv`: the same registry checks, then `days_before` and
`days_after` must be non-negative `int`s.  `days_before_further` is
accepted without any check — no branch of the validation reads it. -/
def validateEcogArgs (cols : List String) (pids : List String)
    (index_date_column : String)
    (days_before days_after days_before_further : PyVal) : Option String :=
  if "PatientID" ∉ cols then
    some "index_date_df must contain a PatientID column"
  else if index_date_column = "" ∨ index_date_column ∉ cols then
    some "index_date_column not found in index_date_df"
  else if ¬ pids.Nodup then
    some "index_date_df contains duplicate PatientID values, which is not allowed"
  else ecogBoundsCheck days_before days_after

/-! ### In-place conversion of the caller's index registry -/

/-- A cell of the caller's index date column: either a raw (object-dtype)
date literal or an already-parsed `datetime64` value, both carrying the day
number they denote. -/
inductive PdCell where
  | strDate (d : ℤ)
  | tsDate (d : ℤ)
deriving DecidableEq, Repr

/-- `pd.to_datetime` on one cell: a raw literal is parsed, a parsed value is
returned unchanged. -/
def pd_to_datetime (c : PdCell) : PdCell :=
  match c with
  | .strDate d => .tsDate d
  | .tsDate d => .tsDate d

/-- The caller's `index_date_df`: a patient column and an index date
column. -/
structure IndexDateDF where
  patientIDs : List String
  indexDates : List PdCell
deriving DecidableEq, Repr

/-- The statement `index_date_df[index_date_column] =
pd.to_datetime(index_date_df[index_date_column])` executed by
`process_demographics` (line 446), `process_biomarkers` (line 649),
`process_ecog` (line 794) and `process_enhanced` (line 262): an in-place
column assignment on the caller's frame that converts the index date column
to datetime. -/
def convertIndexColumn (df : IndexDateDF) : IndexDateDF :=
  { df with indexDates := df.indexDates.map pd_to_datetime }

/-! ### Helper lemmas: deduplicated keys and patient-unique left merges -/

theorem mem_dedupAux {k : String} :
    ∀ {l seen : List String}, k ∈ dedupAux seen l ↔ (k ∈ l ∧ k ∉ seen) := by
  intro l
  induction l with
  | nil => intro seen; simp [dedupAux]
  | cons a t ih =>
    intro seen
    by_cases ha : a ∈ seen
    · rw [dedupAux, if_pos ha, ih]
      constructor
      · rintro ⟨hk, hs⟩
        exact ⟨List.mem_cons_of_mem _ hk, hs⟩
      · rintro ⟨hmem, hs⟩
        rcases List.mem_cons.mp hmem with rfl | hk
        · exact absurd ha hs
        · exact ⟨hk, hs⟩
    · rw [dedupAux, if_neg ha]
      constructor
      · intro hmem
        rcases List.mem_cons.mp hmem with rfl | hmem'
        · exact ⟨List.mem_cons_self _ _, ha⟩
        · obtain ⟨hk, hs⟩ := ih.mp hmem'
          exact ⟨List.mem_cons_of_mem _ hk,
            fun h => hs (List.mem_cons_of_mem _ h)⟩
      · rintro ⟨hmem, hs⟩
        rcases List.mem_cons.mp hmem with rfl | hk
        · exact List.mem_cons_self _ _
        · by_cases hka : k = a
          · exact hka ▸ List.mem_cons_self _ _
          · refine List.mem_cons_of_mem _ (ih.mpr ⟨hk, ?_⟩)
            intro hmem2
            rcases List.mem_cons.mp hmem2 with h' | h'
            · exact hka h'
            · exact hs h'

theorem dedupAux_nodup : ∀ (l seen : List String), (dedupAux seen l).Nodup := by
  intro l
  induction l with
  | nil => intro seen; simp [dedupAux]
  | cons a t ih =>
    intro seen
    by_cases ha : a ∈ seen
    · rw [dedupAux, if_pos ha]
      exact ih seen
    · rw [dedupAux, if_neg ha]
      refine List.nodup_cons.mpr ⟨fun h => ?_, ih (a :: seen)⟩
      exact (mem_dedupAux.mp h).2 (List.mem_cons_self a seen)

theorem dedupKeys_nodup (l : List String) : (dedupKeys l).Nodup :=
  dedupAux_nodup l []

theorem mem_dedupKeys {k : String} {l : List String} :
    k ∈ dedupKeys l ↔ k ∈ l := by
  simp [dedupKeys, mem_dedupAux]

theorem filter_key_eq_nil {β : Type} {tbl : List (String × β)} {k : String}
    (h : k ∉ tbl.map Prod.fst) : tbl.filter (fun q => q.1 = k) = [] := by
  induction tbl with
  | nil => rfl
  | cons a t ih =>
    simp only [List.map_cons, List.mem_cons] at h
    push_neg at h
    simp only [List.filter_cons]
    rw [if_neg (by simpa using Ne.symm h.1), ih h.2]

theorem lookupKey_eq_none {β : Type} {tbl : List (String × β)} {k : String}
    (h : k ∉ tbl.map Prod.fst) : lookupKey tbl k = none := by
  simp [lookupKey, filter_key_eq_nil h]

theorem filter_key_subsingleton {β : Type} {tbl : List (String × β)}
    (h : (tbl.map Prod.fst).Nodup) (k : String) :
    tbl.filter (fun q => q.1 = k) = [] ∨
      ∃ q, tbl.filter (fun q => q.1 = k) = [q] := by
  induction tbl with
  | nil => exact Or.inl rfl
  | cons a t ih =>
    simp only [List.map_cons, List.nodup_cons] at h
    simp only [List.filter_cons]
    by_cases hak : a.1 = k
    · rw [if_pos (by simpa using hak)]
      right
      refine ⟨a, ?_⟩
      rw [filter_key_eq_nil (hak ▸ h.1)]
    · rw [if_neg (by simpa using hak)]
      exact ih h.2

theorem leftMergeIds_eq_map {β : Type} (ids : List String)
    {tbl : List (String × β)} (h : (tbl.map Prod.fst).Nodup) :
    leftMergeIds ids tbl = ids.map (fun k => (k, lookupKey tbl k)) := by
  induction ids with
  | nil => rfl
  | cons k t ih =>
    have hstep : leftMergeIds (k :: t) tbl =
        (match tbl.filter (fun q => q.1 = k) with
          | [] => [(k, none)]
          | ms => ms.map (fun q => (k, some q.2))) ++ leftMergeIds t tbl := rfl
    rw [hstep, ih, List.map_cons]
    rcases filter_key_subsingleton h k with hf | ⟨q, hf⟩
    · simp [hf, lookupKey]
    · simp [hf, lookupKey]

theorem leftMergePair_eq_map {α β : Type} (rows : List (String × α))
    {tbl : List (String × β)} (h : (tbl.map Prod.fst).Nodup) :
    leftMergePair rows tbl = rows.map (fun p => (p.1, p.2, lookupKey tbl p.1)) := by
  induction rows with
  | nil => rfl
  | cons p t ih =>
    have hstep : leftMergePair (p :: t) tbl =
        (match tbl.filter (fun q => q.1 = p.1) with
          | [] => [(p.1, p.2, none)]
          | ms => ms.map (fun q => (p.1, p.2, some q.2))) ++ leftMergePair t tbl := rfl
    rw [hstep, ih, List.map_cons]
    rcases filter_key_subsingleton h p.1 with hf | ⟨q, hf⟩
    · simp [hf, lookupKey]
    · simp [hf, lookupKey]

theorem grouped_map_fst {β : Type} (keys : List String) (g : String → β) :
    ((keys.map (fun k => (k, g k))).map Prod.fst) = keys := by
  rw [List.map_map]
  exact List.map_id keys

theorem leftMergeIds_grouped {β : Type} (ids keys : List String)
    (hkeys : keys.Nodup) (g : String → β) :
    leftMergeIds ids (keys.map (fun k => (k, g k)))
      = ids.map (fun k => (k, lookupKey (keys.map (fun k => (k, g k))) k)) := by
  refine leftMergeIds_eq_map ids ?_
  rw [grouped_map_fst]
  exact hkeys

theorem leftMergePair_grouped {α β : Type} (rows : List (String × α))
    (keys : List String) (hkeys : keys.Nodup) (g : String → β) :
    leftMergePair rows (keys.map (fun k => (k, g k)))
      = rows.map (fun p => (p.1, p.2, lookupKey (keys.map (fun k => (k, g k))) p.1)) := by
  refine leftMergePair_eq_map rows ?_
  rw [grouped_map_fst]
  exact hkeys

/-! ### Claim theorems -/

/-- C1 (amended).  Coverage invariant for the routines that reinstate the
registry: `process_biomarkers` and `process_ecog` return exactly one row per
PatientID of the index registry, in registry order, and a patient with zero
qualifying BRCA events appears with a missing status rather than being
dropped.  (`process_demographics` does not satisfy the invariant; see the
counterexample.) -/
theorem coverage_one_row_per_patient (index_date_df : List (String × ℤ))
    (bio : List BioRow) (ecog : List EcogRow)
    (days_before : Option ℤ) (days_after : ℤ) (db da dbf : ℤ) :
    ((process_biomarkers index_date_df bio days_before days_after).map Prod.fst
      = index_date_df.map Prod.fst) ∧
    ((process_ecog index_date_df ecog db da dbf).map Prod.fst
      = index_date_df.map Prod.fst) ∧
    (∀ pid ∈ index_date_df.map Prod.fst,
      (∀ q ∈ biomarkerQualifyingRows index_date_df bio days_before days_after,
        q.1.patientID ≠ pid) →
      (pid, (none : Option String)) ∈
        process_biomarkers index_date_df bio days_before days_after) := by
  refine ⟨?_, ?_, ?_⟩
  · rw [process_biomarkers,
      leftMergeIds_grouped _ _ (dedupKeys_nodup _) _]
    exact grouped_map_fst _ _
  · rw [process_ecog,
      leftMergePair_grouped _ _ (dedupKeys_nodup _) _,
      leftMergeIds_grouped _ _ (dedupKeys_nodup _) _]
    rw [List.map_map, List.map_map, List.map_map]
    exact List.map_id _
  · intro pid hpid hnone
    rw [process_biomarkers, leftMergeIds_grouped _ _ (dedupKeys_nodup _) _]
    have hnotkey : pid ∉ dedupKeys
        ((biomarkerQualifyingRows index_date_df bio days_before days_after).map
          (fun ri => ri.1.patientID)) := by
      rw [mem_dedupKeys]
      intro hmem
      obtain ⟨q, hq, hqe⟩ := List.mem_map.mp hmem
      exact hnone q hq hqe
    have hlook : lookupKey
        ((dedupKeys ((biomarkerQualifyingRows index_date_df bio days_before days_after).map
          (fun ri => ri.1.patientID))).map
            (fun k => (k, aggBRCA (((biomarkerQualifyingRows index_date_df bio
              days_before days_after).filter (fun ri => ri.1.patientID = k)).map
                (fun ri => ri.1.biomarkerStatus))))) pid = none := by
      refine lookupKey_eq_none ?_
      rw [grouped_map_fst]
      exact hnotkey
    rw [← hlook]
    exact List.mem_map_of_mem (fun k => (k, lookupKey _ k)) hpid

/-- C1 witness: on a registry with one patient and an empty biomarker file,
that patient appears in the output with a missing BRCA status. -/
theorem coverage_one_row_per_patient_witness :
    ("P1", (none : Option String)) ∈ process_biomarkers [("P1", 0)] [] none 0 :=
  (coverage_one_row_per_patient [("P1", 0)] [] [] none 0 90 0 180).2.2 "P1"
    (by decide) (by decide)

/-- C1 counterexample: the claim also asserts the invariant for
`process_demographics`, but a patient present in the index registry and
absent from the demographics file yields an empty output — zero rows for
that patient, not one. -/
theorem coverage_demographics_dropped :
    (process_demographics (fun d => d) [("P1", 0)] []).map DemoOut.patientID
      ≠ ["P1"] := by
  decide

/-- C2.  The Window Resolver keeps an event exactly when its signed offset
satisfies `-days_before <= offset <= days_after` for an integer bound, and
`offset <= days_after` for an unbounded (`None`) lookback; with
`days_before = None, days_after = 14` an event at offset −400 is retained
and an event at offset +15 is not. -/
theorem window_resolver_rule :
    (∀ da off : ℤ, inWindow none da off = true ↔ off ≤ da) ∧
    (∀ b da off : ℤ, 0 ≤ b →
      (inWindow (some b) da off = true ↔ (-b ≤ off ∧ off ≤ da))) ∧
    inWindow none 14 (-400) = true ∧ inWindow none 14 15 = false := by
  refine ⟨?_, ?_, by decide, by decide⟩
  · intro da off
    simp [inWindow]
  · intro b da off _
    simp only [inWindow, Bool.and_eq_true, decide_eq_true_eq]
    tauto

/-- C2 witness: with `days_before = 5, days_after = 2`, the offset −3 is
retained. -/
theorem window_resolver_rule_witness :
    inWindow (some 5) 2 (-3) = true :=
  (window_resolver_rule.2.1 5 2 (-3) (by decide)).mpr (by decide)

/-! ### Helper lemmas: the selection order of the Single-Value Selector -/

theorem betterEcog_iff {x b : ℤ × ℤ} :
    betterEcog x b = true ↔
      (|x.1| < |b.1| ∨ (|x.1| = |b.1| ∧ b.2 < x.2)) := by
  simp [betterEcog]

theorem betterEcog_eq_false_iff {x b : ℤ × ℤ} :
    betterEcog x b = false ↔
      (|b.1| ≤ |x.1| ∧ (|x.1| = |b.1| → x.2 ≤ b.2)) := by
  rw [← Bool.not_eq_true, betterEcog_iff]
  push_neg
  tauto

theorem betterEcog_irrefl (r : ℤ × ℤ) : betterEcog r r = false := by
  rw [betterEcog_eq_false_iff]
  exact ⟨le_refl _, fun _ => le_refl _⟩

theorem betterEcog_chain_won {q p b : ℤ × ℤ} (h1 : betterEcog q p = true)
    (h2 : betterEcog q b = false) : betterEcog p b = false := by
  rw [betterEcog_iff] at h1
  rw [betterEcog_eq_false_iff] at h2 ⊢
  obtain ⟨h2a, h2b⟩ := h2
  rcases h1 with h1 | ⟨h1e, h1v⟩
  · constructor
    · linarith
    · intro he; linarith
  · constructor
    · linarith [h2a]
    · intro he
      have := h2b (by linarith)
      linarith

theorem betterEcog_chain_lost {x r b : ℤ × ℤ} (h1 : betterEcog x r = false)
    (h2 : betterEcog r b = false) : betterEcog x b = false := by
  rw [betterEcog_eq_false_iff] at h1 h2 ⊢
  obtain ⟨h1a, h1b⟩ := h1
  obtain ⟨h2a, h2b⟩ := h2
  constructor
  · linarith
  · intro he
    have hre : |r.1| = |b.1| := by linarith
    have hxr : |x.1| = |r.1| := by linarith
    calc x.2 ≤ r.2 := h1b hxr
      _ ≤ b.2 := h2b hre

theorem selBest_fold (rs : List (ℤ × ℤ)) : ∀ r : ℤ × ℤ,
    (rs.foldl (fun b x => if betterEcog x b then x else b) r) ∈ r :: rs ∧
    ∀ x ∈ r :: rs,
      betterEcog x (rs.foldl (fun b x => if betterEcog x b then x else b) r) = false := by
  induction rs with
  | nil =>
    intro r
    refine ⟨List.mem_cons_self _ _, ?_⟩
    intro x hx
    rw [List.mem_singleton.mp hx]
    exact betterEcog_irrefl r
  | cons y rs ih =>
    intro r
    have hfold : (y :: rs).foldl (fun b x => if betterEcog x b then x else b) r
        = rs.foldl (fun b x => if betterEcog x b then x else b)
            (if betterEcog y r then y else r) := rfl
    by_cases hyr : betterEcog y r = true
    · obtain ⟨hmem, hbest⟩ := ih y
      rw [hfold, if_pos hyr]
      constructor
      · rcases List.mem_cons.mp hmem with he | ht
        · rw [he]
          exact List.mem_cons_of_mem _ (List.mem_cons_self _ _)
        · exact List.mem_cons_of_mem _ (List.mem_cons_of_mem _ ht)
      · intro x hx
        rcases List.mem_cons.mp hx with rfl | hx'
        · exact betterEcog_chain_won hyr (hbest y (List.mem_cons_self y rs))
        · exact hbest x hx'
    · have hyr' : betterEcog y r = false := by
        revert hyr
        cases betterEcog y r <;> simp
      obtain ⟨hmem, hbest⟩ := ih r
      rw [hfold, if_neg hyr]
      constructor
      · rcases List.mem_cons.mp hmem with he | ht
        · rw [he]
          exact List.mem_cons_self _ _
        · exact List.mem_cons_of_mem _ (List.mem_cons_of_mem _ ht)
      · intro x hx
        rcases List.mem_cons.mp hx with rfl | hx'
        · exact hbest x (List.mem_cons_self x rs)
        · rcases List.mem_cons.mp hx' with rfl | hx''
          · exact betterEcog_chain_lost hyr' (hbest r (List.mem_cons_self r rs))
          · exact hbest x (List.mem_cons_of_mem r hx'')

theorem selBest_spec {rows : List (ℤ × ℤ)} {b : ℤ × ℤ}
    (h : selBest rows = some b) :
    b ∈ rows ∧ ∀ x ∈ rows, betterEcog x b = false := by
  cases rows with
  | nil => cases h
  | cons r rs =>
    obtain ⟨hmem, hbest⟩ := selBest_fold rs r
    have hb : rs.foldl (fun b x => if betterEcog x b then x else b) r = b :=
      Option.some.inj h
    rw [hb] at hmem hbest
    exact ⟨hmem, hbest⟩

theorem selBest_eq_none_iff {rows : List (ℤ × ℤ)} :
    selBest rows = none ↔ rows = [] := by
  cases rows <;> simp [selBest]

theorem ecog_index_perm {rows rows' : List (ℤ × ℤ)} (hperm : rows.Perm rows') :
    ecog_index rows = ecog_index rows' := by
  cases hr : selBest rows with
  | none =>
    have : rows = [] := selBest_eq_none_iff.mp hr
    subst this
    have : rows' = [] := hperm.nil_eq.symm
    subst this
    rfl
  | some b =>
    cases hr' : selBest rows' with
    | none =>
      have : rows' = [] := selBest_eq_none_iff.mp hr'
      subst this
      have : rows = [] := hperm.eq_nil
      subst this
      cases hr
    | some b' =>
      obtain ⟨hmem, hbest⟩ := selBest_spec hr
      obtain ⟨hmem', hbest'⟩ := selBest_spec hr'
      have hbb' : betterEcog b b' = false := hbest' b (hperm.mem_iff.mp hmem)
      have hb'b : betterEcog b' b = false := hbest b' (hperm.mem_iff.mpr hmem')
      rw [betterEcog_eq_false_iff] at hbb' hb'b
      have habs : |b.1| = |b'.1| := le_antisymm hb'b.1 hbb'.1
      have hval : b.2 = b'.2 :=
        le_antisymm (hbb'.2 habs) (hb'b.2 habs.symm)
      simp [ecog_index, hr, hr', hval]

/-- C3.  Single-Value Selector: for a nonempty list of in-window (offset,
value) events of one patient, the selected `ecog_index` value is the value
of an event of minimum absolute offset; among events tying on that minimum
absolute offset the numerically largest value is selected; and the selected
value is invariant under permutation of the event rows. -/
theorem single_value_selector_rule (rows rows' : List (ℤ × ℤ))
    (hne : rows ≠ []) (hperm : rows.Perm rows') :
    ∃ b : ℤ × ℤ, b ∈ rows ∧ ecog_index rows = some b.2 ∧
      (∀ x ∈ rows, |b.1| ≤ |x.1|) ∧
      (∀ x ∈ rows, |x.1| = |b.1| → x.2 ≤ b.2) ∧
      ecog_index rows' = ecog_index rows := by
  cases hr : selBest rows with
  | none => exact absurd (selBest_eq_none_iff.mp hr) hne
  | some b =>
    obtain ⟨hmem, hbest⟩ := selBest_spec hr
    refine ⟨b, hmem, by simp [ecog_index, hr], ?_, ?_,
      (ecog_index_perm hperm).symm⟩
    · intro x hx
      exact (betterEcog_eq_false_iff.mp (hbest x hx)).1
    · intro x hx he
      exact (betterEcog_eq_false_iff.mp (hbest x hx)).2 he

/-- C3 witness: the tie-break on the concrete rows
{(−5, 1), (−5, 2), (2, 0)}. -/
theorem single_value_selector_rule_witness :
    ∃ b : ℤ × ℤ, b ∈ [((-5 : ℤ), (1 : ℤ)), (-5, 2), (2, 0)] ∧
      ecog_index [(-5, 1), (-5, 2), (2, 0)] = some b.2 ∧
      (∀ x ∈ [((-5 : ℤ), (1 : ℤ)), (-5, 2), (2, 0)], |b.1| ≤ |x.1|) ∧
      (∀ x ∈ [((-5 : ℤ), (1 : ℤ)), (-5, 2), (2, 0)], |x.1| = |b.1| → x.2 ≤ b.2) ∧
      ecog_index [(-5, 1), (-5, 2), (2, 0)] = ecog_index [(-5, 1), (-5, 2), (2, 0)] :=
  single_value_selector_rule [(-5, 1), (-5, 2), (2, 0)] [(-5, 1), (-5, 2), (2, 0)]
    (by decide) (List.Perm.refl _)

/-- C10 counterexample: on in-window events at offsets {−5, −5, +2} with
values {1, 2, 0}, the code does not select value 2 — the event at offset +2
has the strictly smallest absolute offset (2 < 5), so the minimum-absolute-
offset rule picks it before any tie-break applies. -/
theorem selector_concrete_counterexample :
    ecog_index [(-5, 1), (-5, 2), (2, 0)] ≠ some 2 := by
  decide

/-- C10 (amended).  On in-window events at offsets {−5, −5, +2} with values
{1, 2, 0}, the selected value is 0 (the offset +2 event is uniquely
closest); the larger-value tie-break selects 2 only among the tied events at
offset −5; and the full `process_ecog` pipeline reproduces the selection. -/
theorem selector_concrete_amended :
    ecog_index [(-5, 1), (-5, 2), (2, 0)] = some 0 ∧
    ecog_index [(-5, 1), (-5, 2)] = some 2 ∧
    process_ecog [("P1", 0)]
      [⟨"P1", some (-5), 1⟩, ⟨"P1", some (-5), 2⟩, ⟨"P1", some 2, 0⟩] 90 14 180
      = [("P1", some 0, some false)] := by
  refine ⟨by decide, by decide, by decide⟩

/-! ### Categorical Aggregator and Trend Detector -/

theorem perm_any_eq {α : Type} {l l' : List α} (hperm : l.Perm l')
    (f : α → Bool) : l.any f = l'.any f := by
  by_cases h : l.any f = true
  · obtain ⟨s, hs, hf⟩ := List.any_eq_true.mp h
    rw [h, Eq.comm]
    exact List.any_eq_true.mpr ⟨s, hperm.mem_iff.mp hs, hf⟩
  · have h' : ¬ l'.any f = true := fun hc => by
      obtain ⟨s, hs, hf⟩ := List.any_eq_true.mp hc
      exact h (List.any_eq_true.mpr ⟨s, hperm.mem_iff.mpr hs, hf⟩)
    rw [Bool.not_eq_true] at h h'
    rw [h, h']

/-- C4.  Categorical Aggregator lattice: the aggregated BRCA status is
`positive` iff some status label is in `positive_values`; otherwise
`negative` iff some label is in `negative_values`; otherwise `unknown`
(labels outside both sets contribute to neither); and the result is
invariant under any permutation of the events. -/
theorem categorical_aggregator_lattice (l l' : List String) (hperm : l.Perm l') :
    (aggBRCA l = "positive" ↔ ∃ s ∈ l, s ∈ positive_values) ∧
    (aggBRCA l = "negative" ↔
      ((¬ ∃ s ∈ l, s ∈ positive_values) ∧ ∃ s ∈ l, s ∈ negative_values)) ∧
    (aggBRCA l = "unknown" ↔
      ((¬ ∃ s ∈ l, s ∈ positive_values) ∧ ¬ ∃ s ∈ l, s ∈ negative_values)) ∧
    aggBRCA l = aggBRCA l' := by
  have hmemP : (l.any (fun v => positive_values.contains v) = true) ↔
      ∃ s ∈ l, s ∈ positive_values := by
    simp [List.any_eq_true]
  have hmemN : (l.any (fun v => negative_values.contains v) = true) ↔
      ∃ s ∈ l, s ∈ negative_values := by
    simp [List.any_eq_true]
  have hperm4 : aggBRCA l = aggBRCA l' := by
    rw [aggBRCA, aggBRCA,
      perm_any_eq hperm (fun v => positive_values.contains v),
      perm_any_eq hperm (fun v => negative_values.contains v)]
  by_cases hp : l.any (fun v => positive_values.contains v) = true
  · refine ⟨?_, ?_, ?_, hperm4⟩ <;> simp [aggBRCA, hp, hmemP.mp hp]
  · rw [Bool.not_eq_true] at hp
    have hp' : ¬ ∃ s ∈ l, s ∈ positive_values := fun hc => by
      rw [← hmemP] at hc
      rw [hp] at hc
      cases hc
    by_cases hn : l.any (fun v => negative_values.contains v) = true
    · refine ⟨?_, ?_, ?_, hperm4⟩ <;> simp [aggBRCA, hp, hn, hp', hmemN.mp hn]
    · rw [Bool.not_eq_true] at hn
      have hn' : ¬ ∃ s ∈ l, s ∈ negative_values := fun hc => by
        rw [← hmemN] at hc
        rw [hn] at hc
        cases hc
      refine ⟨?_, ?_, ?_, hperm4⟩ <;> simp [aggBRCA, hp, hn, hp', hn']

/-- C4 witness: one negative-label and one positive-label event yield
`positive` in either order. -/
theorem categorical_aggregator_lattice_witness :
    aggBRCA ["No BRCA mutation", "BRCA mutation NOS"]
      = aggBRCA ["BRCA mutation NOS", "No BRCA mutation"] ∧
    aggBRCA ["No BRCA mutation", "BRCA mutation NOS"] = "positive" := by
  have h := categorical_aggregator_lattice
    ["No BRCA mutation", "BRCA mutation NOS"]
    ["BRCA mutation NOS", "No BRCA mutation"] (by decide)
  exact ⟨h.2.2.2, h.1.mpr ⟨"BRCA mutation NOS", by decide, by decide⟩⟩

/-- C5.  Trend Detector: an empty in-window sequence resolves to a missing
flag; a nonempty chronologically ascending value sequence resolves to a
(non-missing) boolean flag that is true exactly when the last value is at
or above the severe threshold 2 and some strictly earlier value is 0 or 1
(at or below the mild threshold). -/
theorem trend_detector_rule :
    ecogProgressionFlag [] = none ∧
    ∀ vs : List ℤ, vs ≠ [] →
      ∃ b : Bool, ecogProgressionFlag vs = some b ∧
        (b = true ↔ (2 ≤ vs.getLastD 0 ∧ ∃ v ∈ vs.dropLast, v = 0 ∨ v = 1)) := by
  refine ⟨rfl, ?_⟩
  intro vs hne
  cases vs with
  | nil => exact absurd rfl hne
  | cons v rest =>
    refine ⟨_, rfl, ?_⟩
    simp only [Bool.and_eq_true, decide_eq_true_eq, List.any_eq_true,
      Bool.or_eq_true, beq_iff_eq]

/-- C5 witness: the sequence [0, 1, 2] flags true, and the theorem's flag
equation also evaluates the spec's remaining examples. -/
theorem trend_detector_rule_witness :
    ecogProgressionFlag [0, 1, 2] = some true ∧
    ecogProgressionFlag [2, 2, 2] = some false ∧
    ecogProgressionFlag [2] = some false := by
  obtain ⟨b, hb, hiff⟩ := trend_detector_rule.2 [0, 1, 2] (by decide)
  have hbt : b = true := hiff.mpr ⟨by decide, ⟨0, by decide, Or.inl rfl⟩⟩
  exact ⟨hbt ▸ hb, by decide, by decide⟩

/-- C6.  Derived-Metric Calculator: `psa_velocity` is produced exactly when
the diagnosis date is present, the elapsed days between diagnosis and
metastatic diagnosis exceed 30, and both PSA values are present and
strictly positive; `psa_doubling` is produced exactly when additionally the
metastatic PSA strictly exceeds the diagnosis PSA; and when produced the
metrics equal the closed-form formulas.  The precondition sets are
independent: equal PSA values (other preconditions holding) give a velocity
but no doubling value. -/
theorem psa_metrics_rule (lg : ℚ → ℚ) (r : EnhancedRow) :
    ((psa_velocity r).isSome ↔
      (r.diagnosisDate.isSome ∧
       (∃ n, days_diagnosis_to_met r = some n ∧ 30 < n) ∧
       (∃ p0, r.psaDiagnosis = some p0 ∧ 0 < p0) ∧
       (∃ p1, r.psaMetDiagnosis = some p1 ∧ 0 < p1))) ∧
    ((psa_doubling lg r).isSome ↔
      ((psa_velocity r).isSome ∧
       ∃ p0 p1, r.psaDiagnosis = some p0 ∧ r.psaMetDiagnosis = some p1 ∧ p0 < p1)) ∧
    (∀ n p0 p1, days_diagnosis_to_met r = some n → 30 < n →
      r.psaDiagnosis = some p0 → 0 < p0 →
      r.psaMetDiagnosis = some p1 → 0 < p1 →
      psa_velocity r = some ((p1 - p0) / ((n : ℚ) / 30)) ∧
      (p0 < p1 →
        psa_doubling lg r = some ((((n : ℚ) / 30) * lg 2) / (lg p1 - lg p0)))) := by
  obtain ⟨dd, md, q0, q1⟩ := r
  refine ⟨?_, ?_, ?_⟩
  · cases dd <;> cases md <;> cases q0 <;> cases q1 <;>
      simp [psa_velocity, days_diagnosis_to_met]
  · cases dd <;> cases md <;> cases q0 <;> cases q1 <;>
      simp [psa_velocity, psa_doubling, days_diagnosis_to_met]
    all_goals tauto
  · intro n p0 p1 hn h30 hq0 hp0 hq1 hp1
    cases dd <;> cases md <;> simp [days_diagnosis_to_met] at hn
    simp only at hq0 hq1
    subst hn
    subst hq0
    subst hq1
    constructor
    · simp only [psa_velocity, days_diagnosis_to_met]
      rw [if_pos ⟨h30, hp0, hp1⟩]
    · intro hlt
      simp only [psa_doubling, days_diagnosis_to_met]
      rw [if_pos ⟨h30, hlt, hp0, hp1⟩]

/-- C6 witness: with diagnosis day 0, metastatic day 60 and PSA values 10
and 10, a velocity is produced and the doubling value is missing. -/
theorem psa_metrics_rule_witness :
    (psa_velocity ⟨some 0, some 60, some 10, some 10⟩).isSome = true ∧
    psa_doubling (fun q => q) ⟨some 0, some 60, some 10, some 10⟩ = none := by
  have h := psa_metrics_rule (fun q => q) ⟨some 0, some 60, some 10, some 10⟩
  constructor
  · exact h.1.mpr ⟨rfl, ⟨60, rfl, by norm_num⟩, ⟨10, rfl, by norm_num⟩,
      ⟨10, rfl, by norm_num⟩⟩
  · cases hd : psa_doubling (fun q => q) ⟨some 0, some 60, some 10, some 10⟩ with
    | none => rfl
    | some q =>
      obtain ⟨-, p0, p1, hp0, hp1, hlt⟩ := h.2.1.mp (by rw [hd]; rfl)
      rw [Option.some.injEq] at hp0 hp1
      rw [← hp0, ← hp1] at hlt
      exact absurd hlt (lt_irrefl _)

/-- C7 counterexample: the index registry is mutated by the call — the
in-place `pd.to_datetime` column assignment changes a raw date cell of the
caller's frame, so the registry is not unchanged (its dtype and cell
values change). -/
theorem index_registry_mutated :
    convertIndexColumn ⟨["P1"], [.strDate 5]⟩ ≠ ⟨["P1"], [.strDate 5]⟩ := by
  decide

/-- C7 (amended).  The only mutation of the caller's `index_date_df` is the
in-place conversion of the index date column to datetime: the PatientID
column and the row count are unchanged, the conversion is idempotent, and a
registry whose index date column is already datetime is left entirely
unchanged. -/
theorem index_registry_mutation_shape (df : IndexDateDF) :
    (convertIndexColumn df).patientIDs = df.patientIDs ∧
    (convertIndexColumn df).indexDates.length = df.indexDates.length ∧
    convertIndexColumn (convertIndexColumn df) = convertIndexColumn df ∧
    ((∀ c ∈ df.indexDates, ∃ d, c = PdCell.tsDate d) →
      convertIndexColumn df = df) := by
  have hmapself : ∀ (l : List PdCell),
      (∀ c ∈ l, ∃ d, c = PdCell.tsDate d) → l.map pd_to_datetime = l := by
    intro l hl
    induction l with
    | nil => rfl
    | cons c t ih =>
      obtain ⟨d, rfl⟩ := hl c (List.mem_cons_self _ _)
      rw [List.map_cons, ih (fun c hc => hl c (List.mem_cons_of_mem _ hc))]
      rfl
  refine ⟨rfl, by simp [convertIndexColumn], ?_, ?_⟩
  · have hcomp : pd_to_datetime ∘ pd_to_datetime = pd_to_datetime :=
      funext (fun c => by cases c <;> rfl)
    simp only [convertIndexColumn, List.map_map, hcomp]
  · intro h
    simp only [convertIndexColumn, hmapself df.indexDates h]

/-- C7 witness: a registry whose date column is already datetime is
unchanged by the call. -/
theorem index_registry_mutation_shape_witness :
    convertIndexColumn ⟨["P1"], [PdCell.tsDate 3]⟩ = ⟨["P1"], [PdCell.tsDate 3]⟩ :=
  (index_registry_mutation_shape ⟨["P1"], [PdCell.tsDate 3]⟩).2.2.2
    (fun c hc => ⟨3, List.mem_singleton.mp hc⟩)

/-- C8 counterexample: a raw group-stage code that is not a key of
`GROUP_STAGE_MAPPING` is recoded to a missing value by `Series.map`, not to
the `'unknown'` label. -/
theorem unmapped_stage_code_missing :
    series_map GROUP_STAGE_MAPPING "Stage 5" = none ∧
    series_map GROUP_STAGE_MAPPING "Stage 5" ≠ some "unknown" := by
  decide

/-- C8 (amended).  Unmapped raw codes map to the explicit `'unknown'` label
only for the state-to-region recoding (which appends `.fillna('unknown')`);
for the five stage/Gleason dictionaries an unmapped raw code propagates as
a missing value, `'unknown'` arising only for codes explicitly mapped to it
(such as `'Unknown / Not documented'`, `'TX'`, `'NX'`). -/
theorem unmapped_recoding_rule :
    (∀ raw : String, raw ∉ GROUP_STAGE_MAPPING.map Prod.fst →
      series_map GROUP_STAGE_MAPPING raw = none) ∧
    (∀ raw : String, raw ∉ T_STAGE_MAPPING.map Prod.fst →
      series_map T_STAGE_MAPPING raw = none) ∧
    (∀ raw : String, raw ∉ N_STAGE_MAPPING.map Prod.fst →
      series_map N_STAGE_MAPPING raw = none) ∧
    (∀ raw : String, raw ∉ M_STAGE_MAPPING.map Prod.fst →
      series_map M_STAGE_MAPPING raw = none) ∧
    (∀ raw : String, raw ∉ GLEASON_MAPPING.map Prod.fst →
      series_map GLEASON_MAPPING raw = none) ∧
    (∀ s : String, s ∉ STATE_REGIONS_MAPPING.map Prod.fst →
      region_of_state (some s) = "unknown") ∧
    region_of_state none = "unknown" := by
  refine ⟨fun raw h => lookupKey_eq_none h, fun raw h => lookupKey_eq_none h,
    fun raw h => lookupKey_eq_none h, fun raw h => lookupKey_eq_none h,
    fun raw h => lookupKey_eq_none h, ?_, rfl⟩
  intro s h
  rw [region_of_state, series_map, lookupKey_eq_none h]
  rfl

/-- C8 witness: an arbitrary unmapped state code lands in `'unknown'`, and
an unmapped T-stage code lands in a missing value. -/
theorem unmapped_recoding_rule_witness :
    region_of_state (some "ZZ") = "unknown" ∧
    series_map T_STAGE_MAPPING "T9" = none :=
  ⟨unmapped_recoding_rule.2.2.2.2.2.1 "ZZ" (by decide),
   unmapped_recoding_rule.2.1 "T9" (by decide)⟩

/-- C9 counterexample: a negative `days_before_further` passes the
validation of `process_ecog` — no error is raised before the file is read —
while the same negative value in `days_before` is rejected. -/
theorem negative_further_bound_not_rejected :
    validateEcogArgs ["PatientID", "idx"] ["P1"] "idx"
      (.int 90) (.int 0) (.int (-1)) = none ∧
    (validateEcogArgs ["PatientID", "idx"] ["P1"] "idx"
      (.int (-1)) (.int 0) (.int 180)).isSome = true := by
  decide

theorem daysAfterCheck_eq_none_iff (v : PyVal) :
    daysAfterCheck v = none ↔ ∃ m, v = PyVal.int m ∧ 0 ≤ m := by
  cases v with
  | int m =>
    rw [daysAfterCheck]
    by_cases hm : m < 0
    · rw [if_pos hm]
      constructor
      · intro h; exact absurd h (Option.some_ne_none _)
      · rintro ⟨m', hm', hge⟩
        rw [PyVal.int.injEq] at hm'
        omega
    · rw [if_neg hm]
      constructor
      · intro _; exact ⟨m, rfl, by omega⟩
      · intro _; rfl
  | float q => simp [daysAfterCheck]
  | str s => simp [daysAfterCheck]
  | pynone => simp [daysAfterCheck]

theorem ecogBoundsCheck_eq_none_iff (db da : PyVal) :
    ecogBoundsCheck db da = none ↔
      ((∃ n, db = PyVal.int n ∧ 0 ≤ n) ∧ ∃ m, da = PyVal.int m ∧ 0 ≤ m) := by
  cases db with
  | int n =>
    rw [ecogBoundsCheck]
    by_cases hn : n < 0
    · rw [if_pos hn]
      constructor
      · intro h; exact absurd h (Option.some_ne_none _)
      · rintro ⟨⟨n', hn', hge⟩, -⟩
        rw [PyVal.int.injEq] at hn'
        omega
    · rw [if_neg hn, daysAfterCheck_eq_none_iff]
      constructor
      · intro hda; exact ⟨⟨n, rfl, by omega⟩, hda⟩
      · rintro ⟨-, hda⟩; exact hda
  | float q => simp [ecogBoundsCheck]
  | str s => simp [ecogBoundsCheck]
  | pynone => simp [ecogBoundsCheck]

theorem biomarkersBoundsCheck_eq_none_iff (db da : PyVal) :
    biomarkersBoundsCheck db da = none ↔
      ((db = PyVal.pynone ∨ ∃ n, db = PyVal.int n ∧ 0 ≤ n) ∧
        ∃ m, da = PyVal.int m ∧ 0 ≤ m) := by
  cases db with
  | int n =>
    rw [biomarkersBoundsCheck]
    by_cases hn : n < 0
    · rw [if_pos hn]
      constructor
      · intro h; exact absurd h (Option.some_ne_none _)
      · rintro ⟨hdb, -⟩
        rcases hdb with hdb | ⟨n', hn', hge⟩
        · cases hdb
        · rw [PyVal.int.injEq] at hn'
          omega
    · rw [if_neg hn, daysAfterCheck_eq_none_iff]
      constructor
      · intro hda; exact ⟨Or.inr ⟨n, rfl, by omega⟩, hda⟩
      · rintro ⟨-, hda⟩; exact hda
  | float q => simp [biomarkersBoundsCheck]
  | str s => simp [biomarkersBoundsCheck]
  | pynone =>
    rw [biomarkersBoundsCheck, daysAfterCheck_eq_none_iff]
    constructor
    · intro hda; exact ⟨Or.inl rfl, hda⟩
    · rintro ⟨-, hda⟩; exact hda


/-- C9 (amended).  The validation runs on the configuration alone, before
any source data is touched, and passes exactly when the registry has a
PatientID column, the index date column is named and present, the registry
keys are duplicate-free, and `days_before` / `days_after` are non-negative
integers (`days_before` may also be `None` for `process_biomarkers`);
`days_before_further` is never validated. -/
theorem config_validation_rule (cols pids : List String) (idxcol : String)
    (db da dbf : PyVal) :
    (validateEcogArgs cols pids idxcol db da dbf = none ↔
      ("PatientID" ∈ cols ∧ idxcol ≠ "" ∧ idxcol ∈ cols ∧ pids.Nodup ∧
       (∃ n, db = PyVal.int n ∧ 0 ≤ n) ∧ (∃ m, da = PyVal.int m ∧ 0 ≤ m))) ∧
    (validateBiomarkersArgs cols pids idxcol db da = none ↔
      ("PatientID" ∈ cols ∧ idxcol ≠ "" ∧ idxcol ∈ cols ∧ pids.Nodup ∧
       (db = PyVal.pynone ∨ ∃ n, db = PyVal.int n ∧ 0 ≤ n) ∧
       (∃ m, da = PyVal.int m ∧ 0 ≤ m))) := by
  constructor
  · rw [validateEcogArgs]
    by_cases h1 : "PatientID" ∈ cols
    case neg =>
      rw [if_pos h1]
      constructor
      · intro h; exact absurd h (Option.some_ne_none _)
      · rintro ⟨hc, -⟩; exact absurd hc h1
    rw [if_neg (not_not_intro h1)]
    by_cases h2 : idxcol = "" ∨ idxcol ∉ cols
    case pos =>
      rw [if_pos h2]
      constructor
      · intro h; exact absurd h (Option.some_ne_none _)
      · rintro ⟨-, hne, hin, -⟩
        rcases h2 with h2 | h2
        · exact absurd h2 hne
        · exact absurd hin h2
    rw [if_neg h2]
    push_neg at h2
    by_cases h3 : pids.Nodup
    case neg =>
      rw [if_pos h3]
      constructor
      · intro h; exact absurd h (Option.some_ne_none _)
      · rintro ⟨-, -, -, hnd, -⟩; exact absurd hnd h3
    rw [if_neg (not_not_intro h3)]
    rw [ecogBoundsCheck_eq_none_iff]
    constructor
    · rintro ⟨hdb, hda⟩; exact ⟨h1, h2.1, h2.2, h3, hdb, hda⟩
    · rintro ⟨-, -, -, -, hdb, hda⟩; exact ⟨hdb, hda⟩
  · rw [validateBiomarkersArgs]
    by_cases h1 : "PatientID" ∈ cols
    case neg =>
      rw [if_pos h1]
      constructor
      · intro h; exact absurd h (Option.some_ne_none _)
      · rintro ⟨hc, -⟩; exact absurd hc h1
    rw [if_neg (not_not_intro h1)]
    by_cases h2 : idxcol = "" ∨ idxcol ∉ cols
    case pos =>
      rw [if_pos h2]
      constructor
      · intro h; exact absurd h (Option.some_ne_none _)
      · rintro ⟨-, hne, hin, -⟩
        rcases h2 with h2 | h2
        · exact absurd h2 hne
        · exact absurd hin h2
    rw [if_neg h2]
    push_neg at h2
    by_cases h3 : pids.Nodup
    case neg =>
      rw [if_pos h3]
      constructor
      · intro h; exact absurd h (Option.some_ne_none _)
      · rintro ⟨-, -, -, hnd, -⟩; exact absurd hnd h3
    rw [if_neg (not_not_intro h3)]
    rw [biomarkersBoundsCheck_eq_none_iff]
    constructor
    · rintro ⟨hdb, hda⟩; exact ⟨h1, h2.1, h2.2, h3, hdb, hda⟩
    · rintro ⟨-, -, -, -, hdb, hda⟩; exact ⟨hdb, hda⟩
end FlatironETL
